import Mathlib

/-!
Verification of the HCP-interaction frontend's Intent Routing and Field
Synchronization engine, shallowly embedded from the repository's sources:

* `frontend/src/components/hcp/HCPInteractionForm.js` — the field alias
  table, per-field value normalization, the `handleFormUpdate` handler with
  its 3000 ms highlight timeout, and the `handleSubmit` payload builder;
* the `AIAssistantChat` component — the chat-response effect that parses
  response payloads, dispatches on `response_type`, applies field updates and
  appends messages, guarded by `lastProcessedResponse`;
* `frontend/src/features/interactions/interactionsSlice.js` — the Redux
  state holding `chatResponse` and `status`.

JavaScript objects are modelled as association lists with object-update
semantics (`objSet`), JavaScript values reaching field updates as `JsVal`
(a string, or a non-string primitive remembered by its stringification,
on which `toLowerCase` throws).  The outcome of the external `JSON.parse`
on a string payload is carried in the payload constructor itself
(`ChatPayload.str raw parsed`): `parsed = none` models a non-JSON-parseable
string.  Object identity of response payloads (compared by
`lastProcessedResponse`) is modelled by the request's sequence number,
since each request resolves to exactly one response object.
-/

/-- Model of a JavaScript value carried in an envelope or a form field:
either a string, or a non-string primitive remembered by its
stringification (calling `toLowerCase` on the latter throws). -/
inductive JsVal where
  | str (s : String)
  | nonStr (text : String)
deriving DecidableEq

/-- Model of JavaScript `toLowerCase()` on the character-list view of a
string (ASCII case folding, which is all the tables use). -/
def strLower (s : String) : String :=
  ⟨s.data.map Char.toLower⟩

/-- Model of JavaScript `trim()` on the character-list view of a string:
drop whitespace from both ends. -/
def strTrim (s : String) : String :=
  ⟨((s.data.dropWhile Char.isWhitespace).reverse.dropWhile
      Char.isWhitespace).reverse⟩

/-- Association-list lookup, first match wins — models JavaScript property
access `m[k]` (`none` is `undefined`). -/
def alookup {β : Type} (a : String) : List (String × β) → Option β
  | [] => none
  | (k, v) :: rest => if a == k then some v else alookup a rest

/-- Object-update `{...m, [k]: v}` semantics on the association-list model:
replace the value in place when the key is present, append otherwise. -/
def objSet {β : Type} (m : List (String × β)) (k : String) (v : β) :
    List (String × β) :=
  if m.any (fun p => p.1 == k) then
    m.map (fun p => if p.1 == k then (k, v) else p)
  else m ++ [(k, v)]

/-- The `fieldMapping` alias table of `handleFormUpdate`
(HCPInteractionForm.js lines 32-70), in source order. -/
def fieldMappingList : List (String × String) :=
  [("sentiment", "hcpSentiment"),
   ("interaction_type", "interactionType"),
   ("summary", "outcomes"),
   ("key_discussion_points", "topicsDiscussed"),
   ("materials_shared", "materialsShared"),
   ("samples_distributed", "samplesDistributed"),
   ("follow_up_actions", "followUpActions"),
   ("attendees", "attendees"),
   ("date", "date"),
   ("time", "time"),
   ("hcp_name", "hcpName"),
   ("materials", "materialsShared"),
   ("samples", "samplesDistributed"),
   ("follow_up", "followUpActions"),
   ("topics", "topicsDiscussed"),
   ("discussion", "topicsDiscussed"),
   ("outcomes", "outcomes"),
   ("results", "outcomes"),
   ("type", "interactionType"),
   ("interaction_date", "date"),
   ("interaction_time", "time"),
   ("name", "hcpName"),
   ("doctor", "hcpName"),
   ("hcp", "hcpName"),
   ("feeling", "hcpSentiment"),
   ("mood", "hcpSentiment"),
   ("reaction", "hcpSentiment"),
   ("when", "date"),
   ("meeting_date", "date"),
   ("meeting_time", "time")]

/-- The `sentimentMap` value table (HCPInteractionForm.js lines 85-100). -/
def sentimentList : List (String × String) :=
  [("positive", "Positive"), ("good", "Positive"), ("happy", "Positive"),
   ("pleased", "Positive"), ("satisfied", "Positive"),
   ("neutral", "Neutral"), ("okay", "Neutral"), ("fine", "Neutral"),
   ("average", "Neutral"),
   ("negative", "Negative"), ("bad", "Negative"), ("unhappy", "Negative"),
   ("dissatisfied", "Negative"), ("concerned", "Negative")]

/-- The `typeMap` value table (HCPInteractionForm.js lines 106-114). -/
def typeList : List (String × String) :=
  [("meeting", "Meeting"), ("call", "Call"), ("phone", "Call"),
   ("email", "Email"), ("visit", "Visit"), ("conference", "Conference"),
   ("other", "Other")]

/-- Alias resolution: `fieldMapping[field.toLowerCase()] || field`
(HCPInteractionForm.js line 72). -/
def normalizeField (field : String) : String :=
  (alookup (strLower field) fieldMappingList).getD field

/-- Sentiment value normalization: `sentimentMap[value.toLowerCase()] || value`
(HCPInteractionForm.js line 101). -/
def sentNorm (v : String) : String :=
  (alookup (strLower v) sentimentList).getD v

/-- Interaction-type value normalization: `typeMap[value.toLowerCase()] || value`
(HCPInteractionForm.js line 115). -/
def typeNorm (v : String) : String :=
  (alookup (strLower v) typeList).getD v

/-- Value normalization for a resolved canonical field: applied only when
the resolved field is `hcpSentiment` or `interactionType`
(HCPInteractionForm.js lines 84-116). -/
def normalizeValue (c v : String) : String :=
  if c == "hcpSentiment" then sentNorm v
  else if c == "interactionType" then typeNorm v
  else v

/-- The field normalizer of the spec:
`normalize(aliasField, rawValue) = (canonicalField, canonicalValue)`,
as implemented by the transformation part of `handleFormUpdate`. -/
def normalizePair (f v : String) : String × String :=
  (normalizeField f, normalizeValue (normalizeField f) v)

/-- The canonical field set: the keys of the component's `formData`
state (HCPInteractionForm.js lines 10-22), in source order. -/
def canonicalFields : List String :=
  ["hcpName", "interactionType", "date", "time", "attendees",
   "topicsDiscussed", "materialsShared", "samplesDistributed",
   "hcpSentiment", "outcomes", "followUpActions"]

/-- Whether the alias table holds an identity entry for canonical field `c`:
an entry whose alias is `c` itself (the table stores lowercase aliases, so
`c.toLower` is also accepted) and whose target is `c`. -/
def hasIdentityAlias (c : String) : Bool :=
  fieldMappingList.any (fun p => (p.1 == c || p.1 == strLower c) && p.2 == c)

/-- Chat message roles. -/
inductive Role where
  | user
  | assistant
deriving DecidableEq

/-- A chat message as appended by the chat component (`setMessages`): role,
content, and the `isError` / `isFormUpdate` / `responseType` classification.
Wall-clock timestamps and the greeting's `isInitial` flag carry no logic and
are not modelled. -/
structure Message where
  role : Role
  content : String
  isError : Bool
  isFormUpdate : Bool
  responseType : Option String
deriving DecidableEq

/-- One entry of a `field_updates` list in a FORM_POPULATE envelope. -/
structure FieldUpdate where
  field : String
  value : JsVal
deriving DecidableEq

/-- The structured shape of a parsed chat response as the effect reads it;
every property is optional (`none` models `undefined`).  `messageJson`
carries the outcome of the external `JSON.parse(parsedResponse.message)`
consulted only by the FORM_POPULATE fallback branch (chat component lines
101-118): the parsed `field_updates` list when the message text parses to an
object holding one, `none` otherwise. -/
structure Parsed where
  response_type : Option String
  field_updates : Option (List FieldUpdate)
  messageJson : Option (List FieldUpdate)
  field : Option String
  value : Option JsVal
  message : Option String
deriving DecidableEq

/-- A chat response payload as delivered by the transport: a structured
object, or a string together with the outcome of the external `JSON.parse`
on it (`none` exactly when the string is not JSON-parseable). -/
inductive ChatPayload where
  | obj (p : Parsed)
  | str (raw : String) (parsed : Option Parsed)
deriving DecidableEq

/-- The client-held state the chat effect mutates: the form data and
per-field highlight flags of the form component, the pending highlight-clear
timeouts (absolute fire time, canonical field), and the message log. -/
structure Core where
  formData : List (String × JsVal)
  updatedFields : List (String × Bool)
  timers : List (Nat × String)
  messages : List Message
deriving DecidableEq

/-- The highlight window of the `setTimeout` at HCPInteractionForm.js
lines 136-141: 3000 ms. -/
def highlightDuration : Nat := 3000

/-- The value-transformation part of `handleFormUpdate`: resolve the alias,
then normalize the value when the resolved field has an enumerated domain.
`Except.error` models the `TypeError` thrown by `value.toLowerCase()` when
the value is not a string. -/
def transformUpdate (field : String) (value : JsVal) :
    Except Unit (String × JsVal) :=
  let f := normalizeField field
  if f == "hcpSentiment" || f == "interactionType" then
    match value with
    | JsVal.str s => Except.ok (f, JsVal.str (normalizeValue f s))
    | JsVal.nonStr _ => Except.error ()
  else Except.ok (f, value)

/-- The state-mutation part of `handleFormUpdate` at time `t`: write the
transformed value, set the highlight flag, and schedule the highlight clear
3000 ms later (`setFormData`, `setUpdatedFields`, `setTimeout`). -/
def applyUpdate (t : Nat) (f : String) (v : JsVal) (c : Core) : Core :=
  { c with formData := objSet c.formData f v,
           updatedFields := objSet c.updatedFields f true,
           timers := c.timers ++ [(t + highlightDuration, f)] }

/-- `handleFormUpdate(field, value)` called at time `t`: transform, then
mutate.  An exception leaves the state untouched, because it is thrown
before any state update. -/
def handleFormUpdate (t : Nat) (field : String) (value : JsVal) (c : Core) :
    Except Unit Core :=
  match transformUpdate field value with
  | Except.ok fv => Except.ok (applyUpdate t fv.1 fv.2 c)
  | Except.error e => Except.error e

/-- Fire every pending highlight-clear timeout due by time `q`, in
scheduling order: each callback unconditionally resets its field's flag to
`false` (HCPInteractionForm.js lines 136-141). -/
def fireDue (q : Nat) (c : Core) : Core :=
  { c with
      updatedFields := c.timers.foldl
        (fun uf ft => if ft.1 ≤ q then objSet uf ft.2 false else uf)
        c.updatedFields,
      timers := c.timers.filter (fun ft => decide (q < ft.1)) }

/-- Append a message to the log (`setMessages(prev => [...prev, m])`). -/
def appendMsg (c : Core) (m : Message) : Core :=
  { c with messages := c.messages ++ [m] }

/-- JavaScript `m || d` on an optional string property: the default is used
when the property is absent or the empty string (both falsy). -/
def msgOr (m : Option String) (d : String) : String :=
  match m with
  | some s => if s == "" then d else s
  | none => d

/-- An assistant message with the given classification. -/
def assistantMsg (content : String) (isError isFormUpdate : Bool)
    (rt : Option String) : Message :=
  ⟨Role.assistant, content, isError, isFormUpdate, rt⟩

/-- A user message as appended by `handleSendMessage`. -/
def userMsg (content : String) : Message :=
  ⟨Role.user, content, false, false, none⟩

/-- Default FORM_POPULATE confirmation text (chat component line 122). -/
def popDefaultMsg : String :=
  "I\x27ve populated the form with your interaction information."

/-- Stringification of a possibly-absent string, as a JS template literal
renders it. -/
def showOptStr : Option String → String
  | some s => s
  | none => "undefined"

/-- Stringification of a possibly-absent value, as a JS template literal
renders it. -/
def showOptVal : Option JsVal → String
  | some (JsVal.str s) => s
  | some (JsVal.nonStr t) => t
  | none => "undefined"

/-- Default FORM_UPDATE confirmation text (chat component line 139). -/
def updDefaultMsg (p : Parsed) : String :=
  "Updated " ++ showOptStr p.field ++ " to \"" ++ showOptVal p.value ++ "\""

/-- FORM_POPULATE primary branch: each field update runs under its own
try/catch, so a throwing update is skipped and the rest still run
(chat component lines 92-100). -/
def applyPopUpdates (t : Nat) (ups : List FieldUpdate) (c : Core) : Core :=
  ups.foldl (fun acc u =>
    match handleFormUpdate t u.field u.value acc with
    | Except.ok c2 => c2
    | Except.error _ => acc) c

/-- FORM_POPULATE fallback branch: the forEach at lines 109-112 runs inside
a single try/catch, so the first throwing update aborts the remaining ones
but the exception is still caught. -/
def applyPopStop (t : Nat) : List FieldUpdate → Core → Core
  | [], c => c
  | u :: rest, c =>
    match handleFormUpdate t u.field u.value c with
    | Except.ok c2 => applyPopStop t rest c2
    | Except.error _ => c

/-- The response dispatch of the chat effect (chat component lines 83-174)
applied at time `t` to a parsed response.  `none` models an uncaught
exception, possible only in the FORM_UPDATE branch whose `onFormUpdate`
call is not wrapped in try/catch; the exception is thrown before any state
change, so the pre-state survives unchanged. -/
def processParsed (t : Nat) (p : Parsed) (c : Core) : Option Core :=
  if p.response_type == some "FORM_POPULATE" then
    let c1 :=
      match p.field_updates with
      | some ups => applyPopUpdates t ups c
      | none =>
        match p.messageJson with
        | some ups => applyPopStop t ups c
        | none => c
    some (appendMsg c1 (assistantMsg (msgOr p.message popDefaultMsg)
      false true (some "FORM_POPULATE")))
  else if p.response_type == some "FORM_UPDATE" then
    let c1 :=
      match p.field, p.value with
      | some f, some v =>
        if f == "" then some c
        else
          match handleFormUpdate t f v c with
          | Except.ok c2 => some c2
          | Except.error _ => none
      | _, _ => some c
    match c1 with
    | some c2 => some (appendMsg c2 (assistantMsg
        (msgOr p.message (updDefaultMsg p)) false true (some "FORM_UPDATE")))
    | none => none
  else if p.response_type == some "ERROR" then
    some (appendMsg c (assistantMsg (msgOr p.message "An error occurred")
      true false (some "ERROR")))
  else
    some (appendMsg c (assistantMsg (msgOr p.message "Response received")
      false false none))

/-- A delivered chat response: the sequence number of the request it answers
(doubling as the response object's identity, see the header comment) and
its payload. -/
structure Delivery where
  token : Nat
  payload : ChatPayload
deriving DecidableEq

/-- The synchronization session: the core the effect mutates, the Redux
`chatResponse` and `status`, the `lastProcessedResponse` ref, the
`isLoading` gate, and the bookkeeping of issued requests (the highest
issued sequence number and the token of the outstanding request, if any). -/
structure SessionState where
  core : Core
  chatResponse : Option Delivery
  lastRef : Option Nat
  isLoading : Bool
  status : String
  highestIssued : Nat
  pendingToken : Option Nat
deriving DecidableEq

/-- Truthiness of the `chatResponse` value as tested by
`if (chatResponse && ...)`: objects are truthy, a string is truthy iff
non-empty. -/
def truthy : ChatPayload → Bool
  | ChatPayload.obj _ => true
  | ChatPayload.str raw _ => raw != ""

/-- Chat component lines 71-81: a string payload is JSON-parsed, and on
parse failure wrapped as `{ message: chatResponse }`. -/
def coerce : ChatPayload → Parsed
  | ChatPayload.obj p => p
  | ChatPayload.str _ (some p) => p
  | ChatPayload.str raw none => ⟨none, none, none, none, none, some raw⟩

/-- The initial `formData` (HCPInteractionForm.js lines 10-22); `d` and `t`
stand for the wall-clock date and time used there. -/
def initialFormData (d t : String) : List (String × JsVal) :=
  [("hcpName", JsVal.str ""),
   ("interactionType", JsVal.str ""),
   ("date", JsVal.str d),
   ("time", JsVal.str t),
   ("attendees", JsVal.str ""),
   ("topicsDiscussed", JsVal.str ""),
   ("materialsShared", JsVal.str ""),
   ("samplesDistributed", JsVal.str ""),
   ("hcpSentiment", JsVal.str "Neutral"),
   ("outcomes", JsVal.str ""),
   ("followUpActions", JsVal.str "")]

/-- The assistant's initial greeting (chat component lines 23-30). -/
def initialGreeting : String :=
  "Hi! I\x27m your intelligent AI assistant with LLM-based decision making. I understand your queries, think about what you want to do, and choose the right tool automatically. Just describe what you want naturally - no special commands needed!\n\nExamples:\n• \"I met with Dr. Smith today about cardiology\" (I\x27ll populate the form)\n• \"Update Dr. Johnson\x27s meeting to positive sentiment\" (I\x27ll edit the interaction)\n• \"Show me all interactions with Dr. Brown\" (I\x27ll get the history)\n• \"Analyze my performance this month\" (I\x27ll generate insights)"

/-- The session at mount: initial form data, greeting message, no response
processed yet, gate open, no request issued. -/
def initState (d t : String) : SessionState :=
  { core := { formData := initialFormData d t, updatedFields := [],
              timers := [], messages := [assistantMsg initialGreeting false false none] },
    chatResponse := none, lastRef := none, isLoading := false,
    status := "idle", highestIssued := 0, pendingToken := none }

/-- The events driving the session: a user send attempt at time `t`, the
fulfillment or rejection of the outstanding request, a run of the chat
effect at time `t`, and the firing of due highlight timeouts at time `t`. -/
inductive Act where
  | send (t : Nat) (text : String)
  | arriveOk (payload : ChatPayload)
  | arriveErr
  | observe (t : Nat)
  | fire (t : Nat)

/-- `handleSendMessage` (chat component lines 181-216): blocked while a
request is outstanding or the input is blank; otherwise append the user
message, close the gate, and issue the next request token.  The Redux
pending reducer sets `status` to loading. -/
def stepSend (t : Nat) (m : String) (σ : SessionState) : SessionState :=
  if σ.isLoading || strTrim m == "" then σ
  else
    { σ with core := appendMsg σ.core (userMsg m),
             isLoading := true,
             status := "loading",
             highestIssued := σ.highestIssued + 1,
             pendingToken := some (σ.highestIssued + 1) }

/-- The `chatWithAgentAsync.fulfilled` reducer: store the payload in
`chatResponse`.  The response carries the token of the request it
fulfills. -/
def stepArriveOk (p : ChatPayload) (σ : SessionState) : SessionState :=
  match σ.pendingToken with
  | none => σ
  | some k =>
    { σ with chatResponse := some ⟨k, p⟩, pendingToken := none,
             status := "succeeded" }

/-- The `chatWithAgentAsync.rejected` reducer: record the failure in
`status`; `chatResponse` and the component's `isLoading` are untouched
(the dispatched thunk promise resolves with the rejected action, so the
catch block in `handleSendMessage` never runs). -/
def stepArriveErr (σ : SessionState) : SessionState :=
  match σ.pendingToken with
  | none => σ
  | some _ => { σ with pendingToken := none, status := "failed" }

/-- One run of the chat-response effect (chat component lines 68-179):
skip when `chatResponse` is falsy or identical to the last processed
response; otherwise dispatch on the parsed shape, then release the gate and
remember the response.  An uncaught exception (`processParsed = none`)
aborts the run before the gate release. -/
def stepObserve (t : Nat) (σ : SessionState) : SessionState :=
  match σ.chatResponse with
  | none => σ
  | some d =>
    if truthy d.payload && !(σ.lastRef == some d.token) then
      match processParsed t (coerce d.payload) σ.core with
      | some c2 => { σ with core := c2, isLoading := false,
                            lastRef := some d.token }
      | none => σ
    else σ

/-- Fire due highlight timeouts. -/
def stepFire (t : Nat) (σ : SessionState) : SessionState :=
  { σ with core := fireDue t σ.core }

/-- The session step relation. -/
def step (σ : SessionState) : Act → SessionState
  | Act.send t m => stepSend t m σ
  | Act.arriveOk p => stepArriveOk p σ
  | Act.arriveErr => stepArriveErr σ
  | Act.observe t => stepObserve t σ
  | Act.fire t => stepFire t σ

/-- States reachable from some mounted session by session events. -/
inductive Reachable : SessionState → Prop where
  | init (d t : String) : Reachable (initState d t)
  | next (σ : SessionState) (a : Act) (h : Reachable σ) : Reachable (step σ a)

/-- Property read with `undefined` fallback used by `handleSubmit`. -/
def getField (fd : List (String × JsVal)) (k : String) : JsVal :=
  (alookup k fd).getD (JsVal.nonStr "undefined")

/-- JavaScript truthiness of a form value, as tested by the
`!formData.interactionType` validation. -/
def truthyVal : Option JsVal → Bool
  | some (JsVal.str s) => s != ""
  | some (JsVal.nonStr _) => true
  | none => false

/-- `handleSubmit` (HCPInteractionForm.js lines 213-242): validation, then
the `interactionData` create-payload, in source key order.  `none` models a
blocked submission; a non-string `hcpName` (which would throw at `.trim()`)
is also modelled as a blocked submission since no payload is produced. -/
def submitPayload (fd : List (String × JsVal)) :
    Option (List (String × JsVal)) :=
  match alookup "hcpName" fd with
  | some (JsVal.str h) =>
    if strTrim h == "" then none
    else if !truthyVal (alookup "interactionType" fd) then none
    else some
      [("hcp_name", JsVal.str (strTrim h)),
       ("interaction_date", getField fd "date"),
       ("interaction_time", getField fd "time"),
       ("interaction_type", getField fd "interactionType"),
       ("attendees", getField fd "attendees"),
       ("summary", getField fd "outcomes"),
       ("key_discussion_points", getField fd "topicsDiscussed"),
       ("materials_shared", getField fd "materialsShared"),
       ("samples_distributed", getField fd "samplesDistributed"),
       ("sentiment", getField fd "hcpSentiment"),
       ("follow_up_actions", getField fd "followUpActions")]
  | _ => none

/-- A fully populated form state built from eleven string values, keyed by
the canonical fields in source order. -/
def mkForm (h it d tm att tp ms sd se oc fu : String) :
    List (String × JsVal) :=
  [("hcpName", JsVal.str h),
   ("interactionType", JsVal.str it),
   ("date", JsVal.str d),
   ("time", JsVal.str tm),
   ("attendees", JsVal.str att),
   ("topicsDiscussed", JsVal.str tp),
   ("materialsShared", JsVal.str ms),
   ("samplesDistributed", JsVal.str sd),
   ("hcpSentiment", JsVal.str se),
   ("outcomes", JsVal.str oc),
   ("followUpActions", JsVal.str fu)]

/-- A core with nothing populated, used for component-level examples. -/
def emptyCore : Core :=
  { formData := [], updatedFields := [], timers := [], messages := [] }

/-- A FORM_POPULATE envelope carrying the given field updates and message. -/
def mkPopulate (ups : List FieldUpdate) (m : Option String) : Parsed :=
  ⟨some "FORM_POPULATE", some ups, none, none, none, m⟩

/-- A plain conversational envelope with the given message. -/
def plainEnv : Parsed :=
  ⟨none, none, none, none, none, some "Hello! How can I help?"⟩

/-- The spec's populate test envelope: FORM_POPULATE with the single update
(sentiment, good) and message ok. -/
def populateEnvelope : Parsed :=
  mkPopulate [⟨"sentiment", JsVal.str "good"⟩] (some "ok")

/-- The session after: mount, send the populate request, receive the
FORM_POPULATE response, and run the effect at time 1. -/
def c4State (d t : String) : SessionState :=
  step (step (step (initState d t)
    (Act.send 0 "I met Dr. Smith")) (Act.arriveOk (ChatPayload.obj populateEnvelope)))
    (Act.observe 1)

/-- Two successive sentiment updates through the populate path: one at
time 0, a second at time 1000, both highlighting `hcpSentiment`. -/
def twoUpdatesCore : Core :=
  applyPopUpdates 1000 [⟨"sentiment", JsVal.str "good"⟩]
    (applyPopUpdates 0 [⟨"sentiment", JsVal.str "bad"⟩] emptyCore)

/-- The session after: mount, send, receive a plain response, process it,
then send a second request — leaving the stored response one token behind
the highest issued token. -/
def staleState : SessionState :=
  step (step (step (step (initState "2025-06-01" "09:00")
    (Act.send 0 "hi")) (Act.arriveOk (ChatPayload.obj plainEnv)))
    (Act.observe 1)) (Act.send 2 "more")

/-- The session after: mount, send a request, and have it rejected by the
transport. -/
def rejectedState : SessionState :=
  step (step (initState "2025-06-01" "09:00")
    (Act.send 0 "log my meeting")) Act.arriveErr

/-- The session after: mount, send a request, and receive the empty string
as the response payload (not JSON-parseable, and falsy). -/
def emptyStringState : SessionState :=
  step (step (initState "2025-06-01" "09:00")
    (Act.send 0 "hi there")) (Act.arriveOk (ChatPayload.str "" none))

/-- The session after: mount, send, and receive a non-JSON string
response. -/
def rawStringState : SessionState :=
  step (step (initState "2025-06-01" "09:00")
    (Act.send 0 "hello")) (Act.arriveOk (ChatPayload.str "plain answer" none))

/-- The session after: mount, send, and receive an ERROR envelope. -/
def errorEnvState : SessionState :=
  step (step (initState "2025-06-01" "09:00")
    (Act.send 0 "do something"))
    (Act.arriveOk (ChatPayload.obj ⟨some "ERROR", none, none, none, none, some "Interaction not found"⟩))

/-- A fully populated, validation-passing form whose HCP name carries
surrounding whitespace. -/
def paddedNameForm : List (String × JsVal) :=
  mkForm " Dr. Smith " "Meeting" "2025-06-01" "10:00" "Rep Team"
    "Trial results" "Brochure" "Samples A" "Positive" "Agreed next steps"
    "Call in two weeks"


/-- Inductive invariant of the session tying the stored response to the
issued tokens: a stored response either answers the newest issued request or
has already been processed; an outstanding request implies a closed gate and
carries the highest issued token; an open gate means any stored response was
already processed; and an outstanding request also means any stored response
was already processed. -/
def SessionInv (σ : SessionState) : Prop :=
  (∀ d : Delivery, σ.chatResponse = some d →
      d.token = σ.highestIssued ∨ σ.lastRef = some d.token)
  ∧ (∀ k : Nat, σ.pendingToken = some k →
      σ.isLoading = true ∧ k = σ.highestIssued)
  ∧ (σ.isLoading = false → ∀ d : Delivery, σ.chatResponse = some d →
      σ.lastRef = some d.token)
  ∧ (∀ k : Nat, σ.pendingToken = some k → ∀ d : Delivery,
      σ.chatResponse = some d → σ.lastRef = some d.token)

/-! ### Helper lemmas about the association-list object model -/

theorem alookup_mem {β : Type} (a : String) (l : List (String × β)) (t : β)
    (h : alookup a l = some t) : (a, t) ∈ l := by
  induction l with
  | nil => simp [alookup] at h
  | cons p rest ih =>
    obtain ⟨k, v⟩ := p
    simp only [alookup] at h
    split at h
    · rename_i hk
      have ha : a = k := beq_iff_eq.mp hk
      subst ha
      cases h
      exact List.mem_cons_self _ _
    · exact List.mem_cons_of_mem _ (ih h)

theorem alookup_map_set {β : Type} (m : List (String × β)) (k : String)
    (v : β) (hm : m.any (fun p => p.1 == k) = true) :
    alookup k (m.map (fun p => if p.1 == k then (k, v) else p)) = some v := by
  induction m with
  | nil => simp at hm
  | cons p rest ih =>
    obtain ⟨pk, pv⟩ := p
    simp only [List.map]
    by_cases hk : (pk == k) = true
    · rw [if_pos hk]
      simp [alookup]
    · rw [if_neg hk]
      have h1 : pk ≠ k := by simpa using hk
      have hk2 : (k == pk) = false :=
        beq_eq_false_iff_ne.mpr (fun h => h1 h.symm)
      simp only [alookup, hk2, Bool.false_eq_true, if_false]
      apply ih
      simpa [List.any_cons, hk] using hm

theorem alookup_append_self {β : Type} (m : List (String × β)) (k : String)
    (v : β) : alookup k (m ++ [(k, v)]) = (alookup k m).getD v := by
  induction m with
  | nil => simp [alookup]
  | cons p rest ih =>
    simp only [List.cons_append, alookup]
    by_cases hk : (k == p.1) = true
    · simp [hk]
    · simp only [Bool.not_eq_true] at hk
      simp [hk, ih]

theorem alookup_map_ne {β : Type} (m : List (String × β)) (k f : String)
    (v : β) (hfk : f ≠ k) :
    alookup f (m.map (fun p => if p.1 == k then (k, v) else p)) =
      alookup f m := by
  induction m with
  | nil => simp [alookup]
  | cons p rest ih =>
    obtain ⟨pk, pv⟩ := p
    simp only [List.map]
    by_cases hk : (pk == k) = true
    · rw [if_pos hk]
      have hp : pk = k := beq_iff_eq.mp hk
      have h1 : (f == k) = false := beq_eq_false_iff_ne.mpr hfk
      have h2 : (f == pk) = false :=
        beq_eq_false_iff_ne.mpr (fun h => hfk (hp ▸ h))
      simp only [alookup, h1, h2, Bool.false_eq_true, if_false]
      exact ih
    · rw [if_neg hk]
      simp only [alookup]
      by_cases hf : (f == pk) = true
      · simp [hf]
      · simp only [Bool.not_eq_true] at hf
        simp only [hf, Bool.false_eq_true, if_false]
        exact ih

theorem alookup_append_ne {β : Type} (m : List (String × β)) (k f : String)
    (v : β) (hfk : f ≠ k) : alookup f (m ++ [(k, v)]) = alookup f m := by
  induction m with
  | nil => simp [alookup, beq_eq_false_iff_ne.mpr hfk]
  | cons p rest ih =>
    simp only [List.cons_append, alookup]
    by_cases hk : (f == p.1) = true
    · simp [hk]
    · simp only [Bool.not_eq_true] at hk
      simp [hk, ih]

theorem alookup_objSet_self {β : Type} (m : List (String × β)) (k : String)
    (v : β) : alookup k (objSet m k v) = some v := by
  unfold objSet
  by_cases hm : (m.any (fun p => p.1 == k)) = true
  · rw [if_pos hm]
    exact alookup_map_set m k v hm
  · rw [if_neg hm]
    rw [alookup_append_self]
    have : alookup k m = none := by
      cases h : alookup k m with
      | none => rfl
      | some t =>
        exfalso
        apply hm
        have hmem := alookup_mem k m t h
        exact List.any_eq_true.mpr ⟨(k, t), hmem, by simp⟩
    simp [this]

theorem alookup_objSet_ne {β : Type} (m : List (String × β)) (k f : String)
    (v : β) (hfk : f ≠ k) : alookup f (objSet m k v) = alookup f m := by
  unfold objSet
  by_cases hm : (m.any (fun p => p.1 == k)) = true
  · rw [if_pos hm]
    exact alookup_map_ne m k f v hfk
  · rw [if_neg hm]
    exact alookup_append_ne m k f v hfk

/-! ### Fixed-point facts about the alias and value tables -/

theorem fieldTargets_fixed :
    fieldMappingList.all (fun p => normalizeField p.2 == p.2) = true := by
  decide

theorem sentTargets_fixed :
    sentimentList.all (fun p => sentNorm p.2 == p.2) = true := by decide

theorem typeTargets_fixed :
    typeList.all (fun p => typeNorm p.2 == p.2) = true := by decide

theorem normalizeField_idem (f : String) :
    normalizeField (normalizeField f) = normalizeField f := by
  cases h : alookup (strLower f) fieldMappingList with
  | none =>
    unfold normalizeField
    simp [h]
  | some t =>
    have h2 : normalizeField f = t := by unfold normalizeField; simp [h]
    rw [h2]
    have hmem := alookup_mem _ _ _ h
    have hall := List.all_eq_true.mp fieldTargets_fixed _ hmem
    exact beq_iff_eq.mp hall

theorem sentNorm_idem (v : String) : sentNorm (sentNorm v) = sentNorm v := by
  cases h : alookup (strLower v) sentimentList with
  | none =>
    unfold sentNorm
    simp [h]
  | some t =>
    have h2 : sentNorm v = t := by unfold sentNorm; simp [h]
    rw [h2]
    have hmem := alookup_mem _ _ _ h
    have hall := List.all_eq_true.mp sentTargets_fixed _ hmem
    exact beq_iff_eq.mp hall

theorem typeNorm_idem (v : String) : typeNorm (typeNorm v) = typeNorm v := by
  cases h : alookup (strLower v) typeList with
  | none =>
    unfold typeNorm
    simp [h]
  | some t =>
    have h2 : typeNorm v = t := by unfold typeNorm; simp [h]
    rw [h2]
    have hmem := alookup_mem _ _ _ h
    have hall := List.all_eq_true.mp typeTargets_fixed _ hmem
    exact beq_iff_eq.mp hall

theorem normalizeValue_idem (c v : String) :
    normalizeValue c (normalizeValue c v) = normalizeValue c v := by
  unfold normalizeValue
  by_cases h1 : (c == "hcpSentiment") = true
  · simp [h1, sentNorm_idem]
  · simp only [Bool.not_eq_true] at h1
    by_cases h2 : (c == "interactionType") = true
    · simp [h1, h2, typeNorm_idem]
    · simp only [Bool.not_eq_true] at h2
      simp [h1, h2]

/-- Claim C2: the field normalizer is idempotent — for every (field, value)
string pair, normalizing the result of a normalization returns the same
(canonical field, canonical value) pair; in particular an already-canonical
pair is returned unchanged. -/
theorem normalizePair_idem (f v : String) :
    normalizePair (normalizePair f v).1 (normalizePair f v).2 =
      normalizePair f v := by
  show (normalizeField (normalizeField f),
        normalizeValue (normalizeField (normalizeField f))
          (normalizeValue (normalizeField f) v)) =
      (normalizeField f, normalizeValue (normalizeField f) v)
  rw [normalizeField_idem, normalizeValue_idem]

/-- Claim C3, counterexample: `hcpName` is a canonical field, yet the alias
table has no entry whose alias is `hcpName` itself (even case-folded) — the
identity-alias invariant fails for it. -/
theorem hcpName_identity_alias_missing :
    ("hcpName" ∈ canonicalFields) ∧ hasIdentityAlias "hcpName" = false := by
  decide

/-- Claim C3, amended: every canonical field has at least one alias mapping
to it, and every canonical field normalizes to itself (canonical names are
absent from the alias table, so they fall through unchanged); but literal
identity alias entries exist only for `date`, `time`, `attendees` and
`outcomes`. -/
theorem alias_closure_fallthrough :
    canonicalFields.all
        (fun c => fieldMappingList.any (fun p => p.2 == c)) = true
    ∧ canonicalFields.all (fun c => normalizeField c == c) = true
    ∧ canonicalFields.filter hasIdentityAlias =
        ["date", "time", "attendees", "outcomes"] := by
  decide

/-! ### Claim C5: the per-field highlight state machine -/

/-- Claim C5, counterexample: with updates of `hcpSentiment` at times 0 and
1000, the highlight-clear scheduled by the first update fires at time 3000
and clears the flag — before time 1000 + 3000, where the claim says the
restarted window would end.  The second update did not restart the timer. -/
theorem highlight_cleared_by_first_expiry :
    alookup "hcpSentiment" twoUpdatesCore.updatedFields = some true
    ∧ 3000 < 1000 + highlightDuration
    ∧ alookup "hcpSentiment" (fireDue 3000 twoUpdatesCore).updatedFields =
        some false := by
  decide

/-- Claim C5, amended: an update makes the field RecentlyUpdated and
schedules an unconditional clear 3000 ms later; a second update of the same
field while highlighted does not cancel or restart the earlier timeout, so
once the earliest pending expiry is due the flag is cleared — even when the
later update's own window has not yet elapsed. -/
theorem highlight_cleared_at_earliest_expiry (c : Core) (f : String)
    (v0 v1 : JsVal) (t0 t1 q : Nat) (h : t0 + highlightDuration ≤ q) :
    alookup f (applyUpdate t0 f v0 c).updatedFields = some true
    ∧ alookup f
        (fireDue q (applyUpdate t1 f v1 (applyUpdate t0 f v0 c))).updatedFields =
        some false := by
  constructor
  · exact alookup_objSet_self _ _ _
  · show alookup f
      (((c.timers ++ [(t0 + highlightDuration, f)]) ++
          [(t1 + highlightDuration, f)]).foldl
        (fun uf ft => if ft.1 ≤ q then objSet uf ft.2 false else uf)
        (objSet (objSet c.updatedFields f true) f true)) = some false
    rw [List.foldl_append, List.foldl_append]
    simp only [List.foldl]
    have hset : ∀ u : List (String × Bool),
        alookup f
          (if t0 + highlightDuration ≤ q then objSet u f false else u) =
          some false := by
      intro u
      rw [if_pos h]
      exact alookup_objSet_self _ _ _
    have hpres : ∀ (u : List (String × Bool)) (b : Nat),
        alookup f u = some false →
        alookup f (if b ≤ q then objSet u f false else u) = some false := by
      intro u b hu
      by_cases hb : b ≤ q
      · rw [if_pos hb]
        exact alookup_objSet_self _ _ _
      · rw [if_neg hb]
        exact hu
    exact hpres _ _ (hset _)

/-- Witness for the amended C5 theorem at a concrete instance. -/
theorem highlight_cleared_at_earliest_expiry_witness :
    0 + highlightDuration ≤ 3500
    ∧ (alookup "hcpSentiment"
          (applyUpdate 0 "hcpSentiment" (JsVal.str "Positive")
            emptyCore).updatedFields = some true
       ∧ alookup "hcpSentiment"
          (fireDue 3500 (applyUpdate 1000 "hcpSentiment" (JsVal.str "Negative")
            (applyUpdate 0 "hcpSentiment" (JsVal.str "Positive")
              emptyCore))).updatedFields = some false) :=
  ⟨by decide,
   highlight_cleared_at_earliest_expiry emptyCore "hcpSentiment"
     (JsVal.str "Positive") (JsVal.str "Negative") 0 1000 3500 (by decide)⟩

/-! ### Claim C10: FORM_POPULATE isolates per-field failures -/

/-- Claim C10: applying a FORM_POPULATE envelope isolates per-field
failures — a throwing (field, value) pair (e.g. a non-string value for an
enumerated field) is skipped while every remaining pair is still applied,
the envelope application result is unchanged from the list without the
throwing pair (confirmation message included), and applying a FORM_POPULATE
envelope never raises an exception to the caller. -/
theorem populate_isolates_update_failures (t : Nat) (c : Core)
    (m : Option String) (ups1 ups2 : List FieldUpdate) (u : FieldUpdate)
    (hu : transformUpdate u.field u.value = Except.error ()) :
    processParsed t (mkPopulate (ups1 ++ u :: ups2) m) c =
      processParsed t (mkPopulate (ups1 ++ ups2) m) c
    ∧ ∀ ups : List FieldUpdate,
        (processParsed t (mkPopulate ups m) c).isSome = true := by
  have hfold : applyPopUpdates t (ups1 ++ u :: ups2) c =
      applyPopUpdates t (ups1 ++ ups2) c := by
    unfold applyPopUpdates
    rw [List.foldl_append, List.foldl_append]
    simp only [List.foldl, handleFormUpdate, hu]
  constructor
  · simp only [processParsed, mkPopulate, beq_self_eq_true, if_true, hfold]
  · intro ups
    simp only [processParsed, mkPopulate, beq_self_eq_true, if_true,
      Option.isSome_some]

/-- Witness for C10 at a concrete envelope: the middle update carries a
non-string sentiment value and throws; the first and third updates are
still applied and the confirmation message appended. -/
theorem populate_isolates_update_failures_witness :
    transformUpdate "sentiment" (JsVal.nonStr "5") = Except.error ()
    ∧ (processParsed 0 (mkPopulate
          [⟨"doctor", JsVal.str "Dr. A"⟩, ⟨"sentiment", JsVal.nonStr "5"⟩,
           ⟨"mood", JsVal.str "good"⟩] (some "done")) emptyCore =
        processParsed 0 (mkPopulate
          [⟨"doctor", JsVal.str "Dr. A"⟩, ⟨"mood", JsVal.str "good"⟩]
          (some "done")) emptyCore
       ∧ ∀ ups : List FieldUpdate,
          (processParsed 0 (mkPopulate ups (some "done")) emptyCore).isSome =
            true) :=
  ⟨rfl,
   populate_isolates_update_failures 0 emptyCore (some "done")
     [⟨"doctor", JsVal.str "Dr. A"⟩] [⟨"mood", JsVal.str "good"⟩]
     ⟨"sentiment", JsVal.nonStr "5"⟩ rfl⟩

/-! ### Claim C4: populate application -/

/-- Claim C4: delivering the FORM_POPULATE envelope with field update
(sentiment, good) and message ok to a freshly mounted session writes the
canonical value Positive into `hcpSentiment` (alias and value normalization
happening at application time, in the session), marks that field
RecentlyUpdated with a clear scheduled one highlight window later, and
appends an assistant message carrying the envelope's message text. -/
theorem populate_envelope_applied (d t : String) :
    alookup "hcpSentiment" (c4State d t).core.formData =
      some (JsVal.str "Positive")
    ∧ alookup "hcpSentiment" (c4State d t).core.updatedFields = some true
    ∧ (c4State d t).core.timers = [(1 + highlightDuration, "hcpSentiment")]
    ∧ (c4State d t).core.messages =
        [assistantMsg initialGreeting false false none,
         userMsg "I met Dr. Smith",
         assistantMsg "ok" false true (some "FORM_POPULATE")] :=
  ⟨rfl, rfl, rfl, rfl⟩

/-! ### Claims about the synchronization session -/

theorem sessionInv_reachable (σ : SessionState) (h : Reachable σ) :
    SessionInv σ := by
  induction h with
  | init d t =>
    refine ⟨?_, ?_, ?_, ?_⟩
    · intro d2 hd
      exact absurd hd (by simp [initState])
    · intro k hk
      exact absurd hk (by simp [initState])
    · intro _ d2 hd
      exact absurd hd (by simp [initState])
    · intro k hk d2 hd
      exact absurd hk (by simp [initState])
  | next σ a hσ ih =>
    obtain ⟨i1, i2, i3, i4⟩ := ih
    cases a with
    | send t m =>
      simp only [step, stepSend]
      by_cases hg : (σ.isLoading || strTrim m == "") = true
      · rw [if_pos hg]
        exact ⟨i1, i2, i3, i4⟩
      · rw [if_neg hg]
        have hg2 : (σ.isLoading || strTrim m == "") = false := by
          simpa using hg
        have hload : σ.isLoading = false := by
          rcases Bool.or_eq_false_iff.mp hg2 with ⟨h1, _⟩
          exact h1
        refine ⟨?_, ?_, ?_, ?_⟩
        · intro d2 hd
          exact Or.inr (i3 hload d2 hd)
        · intro k hk
          exact ⟨rfl, (Option.some.inj hk).symm⟩
        · intro hfalse
          exact absurd hfalse (by simp)
        · intro k hk d2 hd
          exact i3 hload d2 hd
    | arriveOk p =>
      simp only [step, stepArriveOk]
      cases hpt : σ.pendingToken with
      | none => exact ⟨i1, i2, i3, i4⟩
      | some k =>
        obtain ⟨hload, hkeq⟩ := i2 k hpt
        refine ⟨?_, ?_, ?_, ?_⟩
        · intro d2 hd
          injection hd with hd2
          rw [← hd2]
          exact Or.inl hkeq
        · intro k2 hk2
          exact absurd hk2 (by simp)
        · intro hfalse
          rw [hload] at hfalse
          exact absurd hfalse (by simp)
        · intro k2 hk2
          exact absurd hk2 (by simp)
    | arriveErr =>
      simp only [step, stepArriveErr]
      cases hpt : σ.pendingToken with
      | none => exact ⟨i1, i2, i3, i4⟩
      | some k =>
        refine ⟨?_, ?_, ?_, ?_⟩
        · intro d2 hd
          exact i1 d2 hd
        · intro k2 hk2
          exact absurd hk2 (by simp)
        · intro hfalse d2 hd
          exact i3 hfalse d2 hd
        · intro k2 hk2
          exact absurd hk2 (by simp)
    | observe t =>
      cases hcr : σ.chatResponse with
      | none =>
        have hstep : step σ (Act.observe t) = σ := by
          simp [step, stepObserve, hcr]
        rw [hstep]
        exact ⟨i1, i2, i3, i4⟩
      | some d =>
        by_cases hg : (truthy d.payload && !(σ.lastRef == some d.token)) = true
        · cases hpp : processParsed t (coerce d.payload) σ.core with
          | none =>
            have hstep : step σ (Act.observe t) = σ := by
              simp only [step, stepObserve, hcr, hpp, if_pos hg]
            rw [hstep]
            exact ⟨i1, i2, i3, i4⟩
          | some c2 =>
            have hstep : step σ (Act.observe t) =
                { σ with core := c2, isLoading := false,
                         lastRef := some d.token } := by
              simp only [step, stepObserve, hcr, hpp, if_pos hg]
            rw [hstep]
            simp only [Bool.and_eq_true, Bool.not_eq_true'] at hg
            have hne : (σ.lastRef == some d.token) = false := hg.2
            refine ⟨?_, ?_, ?_, ?_⟩
            · intro d2 hd
              rw [hcr] at hd
              injection hd with hd2
              rw [hd2]
              exact Or.inr rfl
            · intro k hk
              have hp := i4 k hk d hcr
              rw [hp] at hne
              simp at hne
            · intro _ d2 hd
              rw [hcr] at hd
              injection hd with hd2
              rw [hd2]
            · intro k hk d2 hd
              have hp := i4 k hk d hcr
              rw [hp] at hne
              simp at hne
        · have hstep : step σ (Act.observe t) = σ := by
            simp only [step, stepObserve, hcr, if_neg hg]
          rw [hstep]
          exact ⟨i1, i2, i3, i4⟩
    | fire t =>
      exact ⟨i1, i2, i3, i4⟩

/-- Claim C1: an envelope delivered to the session that is not the newest
outstanding response — its request token is lower than the session's
highest issued token — is discarded by the effect run: processing it leaves
the whole session state unchanged, so Form State is never mutated by a
stale or duplicate delivery. -/
theorem stale_response_never_mutates (σ : SessionState) (hr : Reachable σ)
    (d : Delivery) (hc : σ.chatResponse = some d)
    (hlt : d.token < σ.highestIssued) (t : Nat) :
    step σ (Act.observe t) = σ := by
  obtain ⟨i1, _, _, _⟩ := sessionInv_reachable σ hr
  have hl : σ.lastRef = some d.token := by
    rcases i1 d hc with h2 | h2
    · exact absurd h2 (Nat.ne_of_lt hlt)
    · exact h2
  simp only [step, stepObserve, hc, hl]
  simp

/-- Witness for C1: a concrete reachable session holding a response one
token behind the highest issued token; the effect run leaves it unchanged. -/
theorem stale_response_never_mutates_witness :
    staleState.chatResponse = some ⟨1, ChatPayload.obj plainEnv⟩
    ∧ (1 : Nat) < staleState.highestIssued
    ∧ step staleState (Act.observe 3) = staleState := by
  refine ⟨rfl, by decide, ?_⟩
  have hre : Reachable staleState := by
    unfold staleState
    exact Reachable.next _ _ (Reachable.next _ _ (Reachable.next _ _
      (Reachable.next _ _ (Reachable.init "2025-06-01" "09:00"))))
  exact stale_response_never_mutates staleState hre
    ⟨1, ChatPayload.obj plainEnv⟩ rfl (by decide) 3

set_option maxRecDepth 8192 in
/-- Claim C6 (code bug): a rejected chat request does not release the
session's AwaitingResponse gate — `isLoading` stays true, no response is
stored, and a later send attempt is a no-op, leaving the session stuck.
The recovery catch block of `handleSendMessage` is unreachable because the
dispatched thunk promise resolves (with the rejected action) rather than
throws, so nothing ever resets `isLoading`. -/
theorem rejected_request_leaves_gate_held :
    rejectedState.isLoading = true
    ∧ rejectedState.status = "failed"
    ∧ rejectedState.chatResponse = none
    ∧ step rejectedState (Act.send 10 "retry") = rejectedState := by
  decide

/-! ### Claim C7: malformed payload safety -/

/-- Claim C7, amended: every non-empty string response that is not
JSON-parseable is surfaced verbatim as a plain conversational assistant
message (no error flag, no response classification), with no exception and
no Form State mutation — the effect only appends to the message log.  The
empty string, although also not JSON-parseable, is falsy and is skipped
entirely by the effect's guard (see the counterexample). -/
theorem nonjson_string_surfaced_plain (σ : SessionState) (k t : Nat)
    (s : String) (hs : s ≠ "")
    (hc : σ.chatResponse = some ⟨k, ChatPayload.str s none⟩)
    (hl : σ.lastRef ≠ some k) :
    step σ (Act.observe t) =
      { σ with core := appendMsg σ.core (assistantMsg s false false none),
               isLoading := false, lastRef := some k } := by
  have hl2 : (σ.lastRef == some k) = false := beq_eq_false_iff_ne.mpr hl
  have hs2 : (s == "") = false := beq_eq_false_iff_ne.mpr hs
  have hproc : processParsed t (coerce (ChatPayload.str s none)) σ.core =
      some (appendMsg σ.core (assistantMsg s false false none)) := by
    simp [coerce, processParsed, msgOr, hs2]
  have ht : (truthy (ChatPayload.str s none) && !(σ.lastRef == some k)) =
      true := by
    simp [truthy, bne, hs2, hl2]
  simp only [step, stepObserve, hc, hproc]
  rw [if_pos ht]

/-- Witness for the amended C7 theorem on a concrete session and string. -/
theorem nonjson_string_surfaced_plain_witness :
    ("plain answer" : String) ≠ ""
    ∧ rawStringState.chatResponse =
        some ⟨1, ChatPayload.str "plain answer" none⟩
    ∧ rawStringState.lastRef ≠ some 1
    ∧ step rawStringState (Act.observe 2) =
        { rawStringState with
            core := appendMsg rawStringState.core
                      (assistantMsg "plain answer" false false none),
            isLoading := false,
            lastRef := some 1 } := by
  refine ⟨by decide, rfl, by decide, ?_⟩
  exact nonjson_string_surfaced_plain rawStringState 1 2 "plain answer"
    (by decide) rfl (by decide)

set_option maxRecDepth 8192 in
/-- Claim C7, counterexample: the empty string is delivered as a string
payload and is not JSON-parseable, yet the session surfaces nothing: the
effect's falsy guard skips it entirely, the state is unchanged, and no
message in the log carries the raw text — the claim's required surfacing
never happens. -/
theorem empty_string_response_not_surfaced :
    emptyStringState.chatResponse = some ⟨1, ChatPayload.str "" none⟩
    ∧ step emptyStringState (Act.observe 1) = emptyStringState
    ∧ emptyStringState.core.messages.all (fun m => m.content != "") = true := by
  decide

/-! ### Claim C8: ERROR envelopes touch only the message log -/

/-- Claim C8: processing an ERROR envelope appends exactly one assistant
message flagged as error (content the envelope's message, defaulted when
absent or empty) and leaves the form data, the highlight flags and the
pending timers unchanged — the form-update path is never invoked. -/
theorem error_envelope_appends_flagged_message (σ : SessionState)
    (k t : Nat) (p : Parsed) (hrt : p.response_type = some "ERROR")
    (hc : σ.chatResponse = some ⟨k, ChatPayload.obj p⟩)
    (hl : σ.lastRef ≠ some k) :
    step σ (Act.observe t) =
      { σ with
          core := appendMsg σ.core
                    (assistantMsg (msgOr p.message "An error occurred")
                      true false (some "ERROR")),
          isLoading := false,
          lastRef := some k } := by
  have hl2 : (σ.lastRef == some k) = false := beq_eq_false_iff_ne.mpr hl
  have hproc : processParsed t (coerce (ChatPayload.obj p)) σ.core =
      some (appendMsg σ.core
        (assistantMsg (msgOr p.message "An error occurred") true false
          (some "ERROR"))) := by
    simp [coerce, processParsed, hrt]
  have ht : (truthy (ChatPayload.obj p) && !(σ.lastRef == some k)) = true := by
    simp [truthy, hl2]
  simp only [step, stepObserve, hc, hproc]
  rw [if_pos ht]

/-- Witness for C8 on a concrete session and ERROR envelope. -/
theorem error_envelope_appends_flagged_message_witness :
    errorEnvState.chatResponse =
      some ⟨1, ChatPayload.obj ⟨some "ERROR", none, none, none, none,
        some "Interaction not found"⟩⟩
    ∧ errorEnvState.lastRef ≠ some 1
    ∧ step errorEnvState (Act.observe 2) =
        { errorEnvState with
            core := appendMsg errorEnvState.core
                      (assistantMsg (msgOr (some "Interaction not found")
                        "An error occurred") true false (some "ERROR")),
            isLoading := false,
            lastRef := some 1 } := by
  refine ⟨rfl, by decide, ?_⟩
  exact error_envelope_appends_flagged_message errorEnvState 1 2
    ⟨some "ERROR", none, none, none, none, some "Interaction not found"⟩
    rfl rfl (by decide)

/-! ### Claim C9: the submission payload -/

set_option maxRecDepth 8192 in
/-- Claim C9, counterexample: a fully populated, validation-passing form
(HCP name ` Dr. Smith ` with surrounding whitespace) submits a payload whose
keys are the snake_case submission aliases, not the canonical field set
(`hcp_name` is a key and is not a canonical field, `hcpName` is not a key),
and whose `hcp_name` value is trimmed, differing from the Form State
value. -/
theorem submit_payload_keys_not_canonical :
    (submitPayload paddedNameForm).map (fun l => l.map (fun p => p.1)) =
      some ["hcp_name", "interaction_date", "interaction_time",
            "interaction_type", "attendees", "summary",
            "key_discussion_points", "materials_shared",
            "samples_distributed", "sentiment", "follow_up_actions"]
    ∧ "hcp_name" ∉ canonicalFields
    ∧ (submitPayload paddedNameForm).bind (alookup "hcp_name") =
        some (JsVal.str "Dr. Smith")
    ∧ alookup "hcpName" paddedNameForm = some (JsVal.str " Dr. Smith ") := by
  decide

/-- Claim C9, amended: for every fully populated Form State passing
validation, the create-payload has exactly one key per canonical field —
the eleven snake_case submission aliases in source order, no extras — and
each value equals the corresponding Form State value, except `hcp_name`,
which carries the trimmed HCP name. -/
theorem submit_payload_shape (h it d tm att tp ms sd se oc fu : String)
    (hv : strTrim h ≠ "") (hit : it ≠ "") :
    submitPayload (mkForm h it d tm att tp ms sd se oc fu) =
      some [("hcp_name", JsVal.str (strTrim h)),
            ("interaction_date", JsVal.str d),
            ("interaction_time", JsVal.str tm),
            ("interaction_type", JsVal.str it),
            ("attendees", JsVal.str att),
            ("summary", JsVal.str oc),
            ("key_discussion_points", JsVal.str tp),
            ("materials_shared", JsVal.str ms),
            ("samples_distributed", JsVal.str sd),
            ("sentiment", JsVal.str se),
            ("follow_up_actions", JsVal.str fu)] := by
  have h1 : (strTrim h == "") = false := beq_eq_false_iff_ne.mpr hv
  have h2 : (it == "") = false := beq_eq_false_iff_ne.mpr hit
  simp [submitPayload, mkForm, alookup, getField, truthyVal, bne, h1, h2]

/-- Witness for the amended C9 theorem on a concrete form. -/
theorem submit_payload_shape_witness :
    strTrim " Dr. Jones " ≠ ""
    ∧ ("Call" : String) ≠ ""
    ∧ submitPayload (mkForm " Dr. Jones " "Call" "2025-06-02" "11:30" "Team"
        "Dosage" "Leaflet" "Kit B" "Neutral" "Follow up" "Email later") =
      some [("hcp_name", JsVal.str (strTrim " Dr. Jones ")),
            ("interaction_date", JsVal.str "2025-06-02"),
            ("interaction_time", JsVal.str "11:30"),
            ("interaction_type", JsVal.str "Call"),
            ("attendees", JsVal.str "Team"),
            ("summary", JsVal.str "Follow up"),
            ("key_discussion_points", JsVal.str "Dosage"),
            ("materials_shared", JsVal.str "Leaflet"),
            ("samples_distributed", JsVal.str "Kit B"),
            ("sentiment", JsVal.str "Neutral"),
            ("follow_up_actions", JsVal.str "Email later")] := by
  refine ⟨by decide, by decide, ?_⟩
  exact submit_payload_shape " Dr. Jones " "Call" "2025-06-02" "11:30" "Team"
    "Dosage" "Leaflet" "Kit B" "Neutral" "Follow up" "Email later"
    (by decide) (by decide)
